import Mathlib

/-!
Shallow embedding of the UnderstoryScene procedural generation pipeline
(`src/foliage.rs`, `src/scene.rs`, `src/terrain.rs`, `src/assets.rs`) and
proofs about it.

Modelling conventions:

* `f32`/`f64` arithmetic is embedded as exact arithmetic over `ℚ`.  All the
  verified properties are structural (grid layout, iteration order, guard
  conditions, interval endpoints, composition order), none of them depends on
  rounding behaviour.
* The external `rand` crate RNGs (`StdRng`, `SmallRng`) are deterministic
  functions of their seed.  They are embedded as an abstract draw source
  `RngSrc`: for each seed, an indexed stream of draws.  An `Rng` value is a
  seed together with a cursor into that stream; every draw advances the
  cursor, so the *sequence* of draws performed by the code is tracked
  faithfully (which matters for the RNG-state claims).  Where a claim needs
  the range of a draw (`gen::<f32>` is in `[0,1)`, the draw used by
  `Uniform::new_inclusive` is in `[0,1]`, `shuffle` permutes) that fact is a
  hypothesis on the source, matching the `rand` crate's documented behaviour.
* The external `noise` crate fractal generators (`Fbm<Perlin>`, `Fbm<Value>`,
  the `Fbm<RockMap>` stack) are pure seeded fields; they are embedded as
  abstract fields of `RngSrc`.  The arithmetic combinators the repository
  composes on top of them (`ScaleBias`, `Add`, `Multiply`, `Power` with a
  constant exponent of `2.0`, `Clamp`) have simple documented semantics and
  are embedded concretely: `ScaleBias` is `value * scale + bias`, `Clamp` is
  `Ord.clamp`, `Power(v, 2)` is squaring.
-/

/-- A 2D point (`glm::Vec2`). -/
abbrev Pt : Type := ℚ × ℚ

/-- A seeded RNG in a given state: the seed it was created from and the
cursor position in its draw stream. -/
structure Rng where
  seed : ℕ
  cursor : ℕ
  deriving DecidableEq, Repr

/-- Abstract model of the deterministic external draw sources: the `rand`
crate RNG streams and the `noise` crate fractal generators.  Every field is a
pure function, reflecting that all of these are fully determined by their
seeds. -/
structure RngSrc where
  /-- Stream of `StdRng` `gen::<f32>()` draws (values in `[0,1)`): seed → cursor → value. -/
  stdUnit : ℕ → ℕ → ℚ
  /-- Stream of `StdRng` integer draws (`gen::<u32>()` / `gen::<u64>()` sub-seeds). -/
  stdNat : ℕ → ℕ → ℕ
  /-- The `StdRng` draw consumed by `Uniform::new_inclusive` (value in `[0,1]`). -/
  stdCC : ℕ → ℕ → ℚ
  /-- Model of `SliceRandom::shuffle` on a point vector: seed → cursor → list →
  (permuted list, cursor after the shuffle's draws). -/
  stdShuffle : ℕ → ℕ → List Pt → List Pt × ℕ
  /-- Stream of `SmallRng` `gen::<u32>()` draws (sub-seed derivation in `scene.rs`). -/
  smallNat : ℕ → ℕ → ℕ
  /-- Field `noise::Fbm::<Perlin>` (4 octaves, frequency 0.2), from `probability_distribution`. -/
  fbmPerlin : ℕ → ℚ → ℚ → ℚ
  /-- Field `noise::Fbm::<Value>` (6 octaves, frequency 0.2), used by `height_map`
  and `variant_map` in `terrain.rs`. -/
  fbmValue602 : ℕ → ℚ → ℚ → ℚ
  /-- Field `noise::Fbm::<RockMap>` stack (3 octaves, lacunarity 3, persistence 0.3,
  frequency 0.8), used by `height_map`. -/
  fbmRock : ℕ → ℚ → ℚ → ℚ

/-- One `gen::<f32>()` draw. -/
def RngSrc.genUnit (src : RngSrc) (r : Rng) : ℚ × Rng :=
  (src.stdUnit r.seed r.cursor, ⟨r.seed, r.cursor + 1⟩)

/-- One integer draw (`gen::<u32>()` / `gen::<u64>()`). -/
def RngSrc.genNat (src : RngSrc) (r : Rng) : ℕ × Rng :=
  (src.stdNat r.seed r.cursor, ⟨r.seed, r.cursor + 1⟩)

/-- One draw as consumed by `Uniform::new_inclusive`. -/
def RngSrc.genCC (src : RngSrc) (r : Rng) : ℚ × Rng :=
  (src.stdCC r.seed r.cursor, ⟨r.seed, r.cursor + 1⟩)

/-- Model of `positions.shuffle(&mut rng)`. -/
def RngSrc.shuffle (src : RngSrc) (r : Rng) (l : List Pt) : List Pt × Rng :=
  let s := src.stdShuffle r.seed r.cursor l
  (s.1, ⟨r.seed, s.2⟩)

/-- Model of `rng.sample(Uniform::new(a, b))`: a value in `[a, b)` obtained by scaling
a unit draw (the `rand` crate's half-open float uniform). -/
def RngSrc.sampleUniform (src : RngSrc) (a b : ℚ) (r : Rng) : ℚ × Rng :=
  let u := src.genUnit r
  (a + (b - a) * u.1, u.2)

/-- Model of `rng.sample(Uniform::new_inclusive(a, b))`: a value in `[a, b]` obtained
by scaling a closed unit draw. -/
def RngSrc.sampleUniformInclusive (src : RngSrc) (a b : ℚ) (r : Rng) : ℚ × Rng :=
  let u := src.genCC r
  (a + (b - a) * u.1, u.2)

/-- Semantics of `noise::ScaleBias { scale, bias }`: `value * scale + bias`. -/
def scaleBias (scale bias v : ℚ) : ℚ := v * scale + bias

/-- Embedding of `probability_distribution` (`foliage.rs:196`): an
`Fbm::<Perlin>` field passed through `ScaleBias` with `bias = 1.0` and
`scale = density / 2.0`. -/
def probability_distribution (src : RngSrc) (density : ℚ) (seed : ℕ) : ℚ → ℚ → ℚ :=
  fun x y => scaleBias (density / 2) 1 (src.fbmPerlin seed x y)

/-- The inner scatter loop of `generate_points_on_distribution`
(`foliage.rs:250`): `n` points, each `(fx + dx * u₁, fy + dy * u₂)` with two
fresh unit draws (x first, then y). -/
def scatterPoints (src : RngSrc) (fx fy dx dy : ℚ) : ℕ → Rng → List Pt × Rng
  | 0, r => ([], r)
  | n + 1, r =>
    let u1 := src.genUnit r
    let u2 := src.genUnit u1.2
    let rest := scatterPoints src fx fy dx dy n u2.2
    ((fx + dx * u1.1, fy + dy * u2.1) :: rest.1, rest.2)

/-- The body of the per-cell loop of `generate_points_on_distribution`
(`foliage.rs:239`): evaluate the distribution at the cell centre, scale by the
cell area, skip the cell entirely when the result is `≤ 0` (`continue`,
before any draw), otherwise draw the count as `(density + u).floor as usize`
and scatter that many points. -/
def cellStep (src : RngSrc) (distribution : ℚ → ℚ → ℚ) (x_min y_min dx dy area : ℚ)
    (x y : ℕ) (r : Rng) : List Pt × Rng :=
  let fx := x_min + dx * (x : ℚ)
  let fy := y_min + dy * (y : ℚ)
  let density := distribution (fx + dx / 2) (fy + dy / 2) * area
  if density ≤ 0 then ([], r)
  else
    let u := src.genUnit r
    let num_points_in_chunk := (⌊density + u.1⌋).toNat
    scatterPoints src fx fy dx dy num_points_in_chunk u.2

/-- Embedding of `generate_points_on_distribution` (`foliage.rs:222`): a fresh
`StdRng` from `seed`, a fixed `100 × 100` grid over the rectangle, and the
nested `for x { for y { … } }` loops accumulating points in order. -/
def generate_points_on_distribution (src : RngSrc) (distribution : ℚ → ℚ → ℚ)
    (rect : ℚ × ℚ × ℚ × ℚ) (seed : ℕ) : List Pt :=
  let x_min := rect.1
  let x_max := rect.2.1
  let y_min := rect.2.2.1
  let y_max := rect.2.2.2
  let resolution : ℕ := 100
  let dx := (x_max - x_min) / (resolution : ℚ)
  let dy := (y_max - y_min) / (resolution : ℚ)
  let area := dx * dy
  ((List.range resolution).foldl
    (fun acc x =>
      (List.range resolution).foldl
        (fun acc y =>
          let s := cellStep src distribution x_min y_min dx dy area x y acc.2
          (acc.1 ++ s.1, s.2))
        acc)
    ([], ⟨seed, 0⟩)).1

/-! ### Raster image adapter (`assets.rs`) -/

/-- The scene side length (`scene.rs:24`): `SCENE_SIZE = 15.0`. -/
def SCENE_SIZE : ℚ := 15

/-- An `image::RgbaImage`: dimensions plus a pixel accessor.
`pix col row channel` is the `u8` channel value of `get_pixel(col, row)`. -/
structure RgbaImage where
  width : ℕ
  height : ℕ
  pix : ℕ → ℕ → Fin 4 → Fin 256

/-- A Rust `as u32` cast of a (finite) `f64`: truncate toward zero and
saturate into `[0, 2^32 - 1]`. -/
def f64AsU32 (q : ℚ) : ℕ := (min ⌊q⌋ (2 ^ 32 - 1)).toNat

/-- The pixel index computation of `ImageNoiseFnWrapper::get`
(`assets.rs:187-191`): scale the world coordinate by `size / SCENE_SIZE`,
cast to `u32`, then `clamp(0, size - 1)` (the lower clamp is vacuous on an
unsigned value). -/
def pixelIndex (size : ℕ) (coord : ℚ) : ℕ :=
  min (f64AsU32 (coord / SCENE_SIZE * (size : ℚ))) (size - 1)

/-- Embedding of `ImageNoiseFnWrapper::<CHANNEL>::get` (`assets.rs:185`):
compute the two clamped pixel indices, index the image with x and y
intentionally switched (`get_pixel(y, x)`), and normalize the selected
channel by `255`. -/
def ImageNoiseFnWrapper.get (img : RgbaImage) (channel : Fin 4) (px py : ℚ) : ℚ :=
  let x := pixelIndex img.width px
  let y := pixelIndex img.height py
  ((img.pix y x channel : ℕ) : ℚ) / 255

/-! ### Instance transforms (`foliage.rs:86-112`) -/

/-- A 4×4 matrix in column-major spirit: `m i j` is row `i`, column `j`. -/
abbrev Mat4 (K : Type) : Type := Fin 4 → Fin 4 → K

/-- Matrix product written out over the four summands. -/
def mat4Mul {K : Type} [CommRing K] (A B : Mat4 K) : Mat4 K := fun i j =>
  A i 0 * B 0 j + A i 1 * B 1 j + A i 2 * B 2 j + A i 3 * B 3 j

/-- The identity matrix (`glm::identity()`). -/
def mat4Id {K : Type} [CommRing K] : Mat4 K := fun i j => if i = j then 1 else 0

/-- Semantics of `glm::translate(m, v)`: right-multiply `m` by a translation,
i.e. replace the last column by `m.col0 * v.x + m.col1 * v.y + m.col2 * v.z + m.col3`. -/
def glmTranslate {K : Type} [CommRing K] (m : Mat4 K) (v : Fin 3 → K) : Mat4 K := fun i j =>
  if j = 3 then m i 0 * v 0 + m i 1 * v 1 + m i 2 * v 2 + m i 3 else m i j

/-- Semantics of `glm::rotate_z(m, angle)`: right-multiply `m` by the Z
rotation with cosine `c` and sine `s`. -/
def glmRotateZ {K : Type} [CommRing K] (m : Mat4 K) (c s : K) : Mat4 K := fun i j =>
  if j = 0 then m i 0 * c + m i 1 * s
  else if j = 1 then m i 0 * (-s) + m i 1 * c
  else m i j

/-- Semantics of `glm::scale(m, v)`: right-multiply `m` by a diagonal scale,
i.e. scale the first three columns componentwise. -/
def glmScale {K : Type} [CommRing K] (m : Mat4 K) (v : Fin 3 → K) : Mat4 K := fun i j =>
  if j = 0 then m i j * v 0
  else if j = 1 then m i j * v 1
  else if j = 2 then m i j * v 2
  else m i j

/-- The per-instance model matrix built at `foliage.rs:101-110`:
`glm::scale(glm::rotate_z(glm::translate(identity, (x, y, h)), angle), (s, s, s * zs))`,
with the rotation angle represented by its cosine `c` and sine `s`. -/
def instanceTransform {K : Type} [CommRing K] (x y h c s sc zs : K) : Mat4 K :=
  glmScale (glmRotateZ (glmTranslate mat4Id ![x, y, h]) c s) ![sc, sc, sc * zs]

/-- A translation matrix (identity with `(v, 1)` as last column). -/
def translationMat {K : Type} [CommRing K] (v : Fin 3 → K) : Mat4 K := fun i j =>
  if j = 3 then ![v 0, v 1, v 2, 1] i else if i = j then 1 else 0

/-- The homogeneous rotation about Z with cosine `c` and sine `s`. -/
def rotationZMat {K : Type} [CommRing K] (c s : K) : Mat4 K :=
  fun i j => ![![c, -s, 0, 0], ![s, c, 0, 0], ![0, 0, 1, 0], ![0, 0, 0, 1]] i j

/-- The diagonal scale matrix for `v` (homogeneous). -/
def scaleMat {K : Type} [CommRing K] (v : Fin 3 → K) : Mat4 K := fun i j =>
  if i = j then ![v 0, v 1, v 2, 1] i else 0

/-- The rotation-angle upper bound used at `foliage.rs:90`:
`Uniform::new(0.0, 6.28)` — the literal `6.28`, not `2π`. -/
def rotationUpperBound : ℚ := 6.28

/-- The three per-instance draws of the `foliage.rs:88-99` closure, in source
order: rotation angle from `Uniform::new(0.0, 6.28)`, Z-scale from
`Uniform::new_inclusive(z_scale_range)`, XY scale from
`Uniform::new_inclusive(scale_range)`. -/
def sampleInstanceParams (src : RngSrc) (z0 z1 s0 s1 : ℚ) (r : Rng) : (ℚ × ℚ × ℚ) × Rng :=
  let a := src.sampleUniform 0 rotationUpperBound r
  let z := src.sampleUniformInclusive z0 z1 a.2
  let s := src.sampleUniformInclusive s0 s1 z.2
  ((a.1, z.1, s.1), s.2)

/-- The `positions.into_iter().map(..)` loop of `foliage.rs:86-112`: one
model matrix per point, threading the builder RNG through the three draws of
each instance.  `cosF` and `sinF` embed `f32::cos` / `f32::sin`. -/
def instanceLoop (src : RngSrc) (cosF sinF : ℚ → ℚ) (height_map : ℚ → ℚ → ℚ)
    (z0 z1 s0 s1 : ℚ) : List Pt → Rng → List (Mat4 ℚ) × Rng
  | [], r => ([], r)
  | p :: ps, r =>
    let d := sampleInstanceParams src z0 z1 s0 s1 r
    let θ := d.1.1
    let zs := d.1.2.1
    let sc := d.1.2.2
    let m := instanceTransform p.1 p.2 (height_map p.1 p.2) (cosF θ) (sinF θ) sc zs
    let rest := instanceLoop src cosF sinF height_map z0 z1 s0 s1 ps d.2
    (m :: rest.1, rest.2)

/-! ### The shrub builder (`foliage.rs:50-121`) and the scene (`scene.rs`) -/

/-- The instance-cap step of `ShrubEntitiesBuilder::load` (`foliage.rs:73-78`):
when more points were generated than `num_limit`, shuffle them with the
builder RNG and truncate (`Vec::resize_with` to a smaller length drops the
tail; the growth closure is unreachable). -/
def applyEntityLimit (src : RngSrc) (num_limit : ℕ) (positions : List Pt) (r : Rng) :
    List Pt × Rng :=
  if num_limit < positions.length then
    let s := src.shuffle r positions
    (s.1.take num_limit, s.2)
  else (positions, r)

/-- The configurable state of `ShrubEntitiesBuilder` that affects geometry
(model/texture/shader handles do not).  `bushChannel` is the channel of the
optional `ImageNoiseFnWrapper` bushiness modulator (`none` when unset). -/
structure ShrubConfig where
  density : ℚ
  num_limit : ℕ
  z_scale_range : ℚ × ℚ
  scale_range : ℚ × ℚ
  bushChannel : Option (Fin 4)

/-- Builder defaults (`ShrubEntitiesBuilder::new`, `foliage.rs:36-48`):
density 0, limit `usize::MAX`, both scale ranges `(1, 1)`, no bushiness. -/
def ShrubEntitiesBuilder.new : ShrubConfig :=
  { density := 0, num_limit := 2 ^ 64 - 1, z_scale_range := (1, 1),
    scale_range := (1, 1), bushChannel := none }

/-- Embedding of `ShrubEntitiesBuilder::load` (`foliage.rs:50`): seed a fresh
`StdRng`; draw the distribution sub-seed; optionally modulate the
distribution by the bushiness field `(channel² · 2 + 0.1)`; draw the point
sub-seed and generate the points on `(0, SCENE_SIZE, 0, SCENE_SIZE)`;
apply the entity limit; then compute one transform per point.  Returns the
final positions and model matrices. -/
def ShrubEntitiesBuilder.load (src : RngSrc) (cosF sinF : ℚ → ℚ) (img : RgbaImage)
    (height_map : ℚ → ℚ → ℚ) (cfg : ShrubConfig) (seed : ℕ) :
    List Pt × List (Mat4 ℚ) :=
  let rng : Rng := ⟨seed, 0⟩
  let d1 := src.genNat rng
  let distr := probability_distribution src cfg.density d1.1
  let d2 := src.genNat d1.2
  let positions :=
    match cfg.bushChannel with
    | some ch =>
      let bushiness := fun x y =>
        scaleBias 2 (1/10) ((ImageNoiseFnWrapper.get img ch x y) ^ 2)
      generate_points_on_distribution src (fun x y => distr x y * bushiness x y)
        (0, SCENE_SIZE, 0, SCENE_SIZE) d2.1
    | none =>
      generate_points_on_distribution src distr (0, SCENE_SIZE, 0, SCENE_SIZE) d2.1
  let cap := applyEntityLimit src cfg.num_limit positions d2.2
  let mats := instanceLoop src cosF sinF height_map
    cfg.z_scale_range.1 cfg.z_scale_range.2 cfg.scale_range.1 cfg.scale_range.2
    cap.1 cap.2
  (cap.1, mats.1)

/-- Embedding of `terrain::height_map` (`terrain.rs:190`): a `SmallRng` is
seeded and drawn twice for the rock and value-noise sub-seeds; the field is
`(red(x,y))² · 2 + (fbmRock · 0.8 + (fbmValue · 0.3 + 0.3))`. -/
def height_map (src : RngSrc) (img : RgbaImage) (seed : ℕ) : ℚ → ℚ → ℚ :=
  let rocksSeed := src.smallNat seed 0
  let heightSeed := src.smallNat seed 1
  fun x y =>
    let rocks := scaleBias (4/5) 0 (src.fbmRock rocksSeed x y)
    let height := scaleBias (3/10) (3/10) (src.fbmValue602 heightSeed x y)
    let base_height := scaleBias 2 0 ((ImageNoiseFnWrapper.get img 0 x y) ^ 2)
    base_height + (rocks + height)

/-- A clamp on ℚ, the semantics of `f64::clamp` / `noise::Clamp`. -/
def clampQ (lo hi v : ℚ) : ℚ := min hi (max lo v)

/-- Embedding of `terrain::variant_map` (`terrain.rs:215`): value noise
rescaled into `[0,1]`, plus the squared green channel scaled by `0.3`, the
sum clamped to `[0,1]` and finally squared (`noise::Power` with constant
exponent 2). -/
def variant_map (src : RngSrc) (img : RgbaImage) (seed : ℕ) : ℚ → ℚ → ℚ :=
  fun x y =>
    let noise := scaleBias (1/2) (1/2) (src.fbmValue602 seed x y)
    let bushiness := scaleBias (3/10) 0 ((ImageNoiseFnWrapper.get img 1 x y) ^ 2)
    let total := clampQ 0 1 (bushiness + noise)
    total ^ 2

/-- The geometry-relevant output of `Scene::create` (`scene.rs:32`): for each
vegetation category, in construction order (saplings, bushes, shrubs, trees),
the final point list and the instance-transform list.  The `SmallRng` seeded
from the scene seed is drawn once per sub-seed in source order: height map,
variant map, bush heights, then one load seed per category.  (The variant-map
and bush-height fields do not influence placement, but their draws still
advance the sub-seed cursor and are therefore modelled.) -/
def Scene.create (src : RngSrc) (cosF sinF : ℚ → ℚ) (img : RgbaImage) (seed : ℕ) :
    List (List Pt × List (Mat4 ℚ)) :=
  let heightSeed := src.smallNat seed 0
  let hm := height_map src img heightSeed
  let saplings := ShrubEntitiesBuilder.load src cosF sinF img hm
    { ShrubEntitiesBuilder.new with
      density := 50, bushChannel := some 1, z_scale_range := (2/5, 6/5) }
    (src.smallNat seed 3)
  let bushes := ShrubEntitiesBuilder.load src cosF sinF img hm
    { ShrubEntitiesBuilder.new with
      density := 30, z_scale_range := (9/10, 1) }
    (src.smallNat seed 4)
  let shrubs := ShrubEntitiesBuilder.load src cosF sinF img hm
    { ShrubEntitiesBuilder.new with
      density := 5, bushChannel := some 1, z_scale_range := (7/10, 1),
      scale_range := (3/2, 3) }
    (src.smallNat seed 5)
  let trees := ShrubEntitiesBuilder.load src cosF sinF img hm
    { ShrubEntitiesBuilder.new with
      density := 1, num_limit := 60, bushChannel := some 2,
      scale_range := (1/2, 1) }
    (src.smallNat seed 6)
  [saplings, bushes, shrubs, trees]

/-- Embedding of `Scene::eye_position` (`scene.rs:137-148`) as a function of
the elapsed time `t` (with `f32::sin` embedded as the parameter `sinF`): the
source computes a sinusoidal `bob` vector but returns only the constant
`base`. -/
def Scene.eye_position (sinF : ℚ → ℚ) (t : ℚ) : ℚ × ℚ × ℚ :=
  let bob : ℚ × ℚ × ℚ :=
    (1/10 * sinF (t * (32/100) + 1),
     3/100 * sinF (t * (33/100) + 2),
     5/100 * sinF (t * (34/100) + 3))
  let base : ℚ × ℚ × ℚ := (1, 1, 2)
  base

/-! ### Specification-side formulation of the point process

These definitions follow the wording of the specification (not the source);
they exist to be compared with the source embedding above. -/

/-- The cells of an `n × n` grid in the fixed nested order the specification
states: `x` outer, `y` inner. -/
def rowMajorCells (n : ℕ) : List (ℕ × ℕ) :=
  (List.range n).flatMap fun x => (List.range n).map fun y => (x, y)

/-- Sequentially run a per-cell sampler over a list of cells, threading the
RNG and concatenating the produced points in order. -/
def runCellsWith (step : ℕ × ℕ → Rng → List Pt × Rng) :
    List (ℕ × ℕ) → Rng → List Pt × Rng
  | [], r => ([], r)
  | c :: cs, r =>
    let s := step c r
    let rest := runCellsWith step cs s.2
    (s.1 ++ rest.1, rest.2)

/-- One grid cell of the point process as the specification describes it:
evaluate the density field at the cell centre and multiply by the cell area
to obtain the expected count `λ`; if `λ` is positive, draw the cell's count
as `⌊λ + u⌋` with one uniform draw `u` and scatter exactly that many points
uniformly within the cell; a cell with `λ ≤ 0` contributes no points and
performs no draw. -/
def specCell (src : RngSrc) (field : ℚ → ℚ → ℚ) (x_min y_min dx dy : ℚ)
    (c : ℕ × ℕ) (r : Rng) : List Pt × Rng :=
  let cornerX := x_min + dx * (c.1 : ℚ)
  let cornerY := y_min + dy * (c.2 : ℚ)
  let lam := field (cornerX + dx / 2) (cornerY + dy / 2) * (dx * dy)
  if 0 < lam then
    let u := src.genUnit r
    scatterPoints src cornerX cornerY dx dy (⌊lam + u.1⌋).toNat u.2
  else ([], r)

/-- The point process as the specification states it: partition the rectangle
into a fixed `100 × 100` grid, iterate the cells in the fixed nested order,
and let each cell contribute its `specCell` points with one RNG threaded
through the whole process. -/
def point_process_spec (src : RngSrc) (field : ℚ → ℚ → ℚ)
    (rect : ℚ × ℚ × ℚ × ℚ) (seed : ℕ) : List Pt :=
  let R : ℕ := 100
  let dx := (rect.2.1 - rect.1) / (R : ℚ)
  let dy := (rect.2.2.2 - rect.2.2.1) / (R : ℚ)
  (runCellsWith (specCell src field rect.1 rect.2.2.1 dx dy)
    (rowMajorCells R) ⟨seed, 0⟩).1

/-- Modelled from the claim's description of the raster-channel adapter:
map the world coordinate to a pixel coordinate by linear scaling against the
world-space domain size, clamp into the image bounds, index the image with
the deliberate x/y axis swap, and normalize the selected channel to `[0,1]`. -/
def imageGetSpec (img : RgbaImage) (channel : Fin 4) (px py : ℚ) : ℚ :=
  let xIdx := min (f64AsU32 (px * (img.width : ℚ) / SCENE_SIZE)) (img.width - 1)
  let yIdx := min (f64AsU32 (py * (img.height : ℚ) / SCENE_SIZE)) (img.height - 1)
  ((img.pix yIdx xIdx channel : ℕ) : ℚ) / 255

/-! ### Concrete instances used by the witnesses -/

/-- A concrete, everywhere-zero draw source (with the identity as the
shuffle); it satisfies all the range hypotheses placed on `RngSrc`. -/
def trivialSrc : RngSrc where
  stdUnit := fun _ _ => 0
  stdNat := fun _ _ => 0
  stdCC := fun _ _ => 0
  stdShuffle := fun _ c l => (l, c)
  smallNat := fun _ _ => 0
  fbmPerlin := fun _ _ _ => 0
  fbmValue602 := fun _ _ _ => 0
  fbmRock := fun _ _ _ => 0

/-- Source `trivialSrc` with the `Fbm<Perlin>` field pinned to the constant `q`
(used to evaluate the density transform at a chosen base-noise value). -/
def constPerlinSrc (q : ℚ) : RngSrc :=
  { trivialSrc with fbmPerlin := fun _ _ _ => q }

/-- A concrete 1×1 image whose only pixel is zero on every channel. -/
def trivialImg : RgbaImage where
  width := 1
  height := 1
  pix := fun _ _ _ => 0

/-! ### Helper lemmas -/

theorem scatterPoints_length (src : RngSrc) (fx fy dx dy : ℚ) :
    ∀ (n : ℕ) (r : Rng), ((scatterPoints src fx fy dx dy n r).1).length = n
  | 0, _ => rfl
  | n + 1, r => by
    simp [scatterPoints, scatterPoints_length src fx fy dx dy n]

theorem foldl_accum_eq_runCellsWith (step : ℕ × ℕ → Rng → List Pt × Rng) :
    ∀ (cs : List (ℕ × ℕ)) (acc : List Pt × Rng),
      cs.foldl (fun acc c => (acc.1 ++ (step c acc.2).1, (step c acc.2).2)) acc =
        (acc.1 ++ (runCellsWith step cs acc.2).1, (runCellsWith step cs acc.2).2) := by
  intro cs
  induction cs with
  | nil => intro acc; simp [runCellsWith]
  | cons c cs ih =>
    intro acc
    simp only [List.foldl_cons, runCellsWith]
    rw [ih]
    simp [List.append_assoc]

theorem foldl_accum_runCellsWith_nil (step : ℕ × ℕ → Rng → List Pt × Rng)
    (cs : List (ℕ × ℕ)) (r0 : Rng) :
    (cs.foldl (fun acc c => (acc.1 ++ (step c acc.2).1, (step c acc.2).2))
        (([] : List Pt), r0)).1 =
      (runCellsWith step cs r0).1 := by
  rw [foldl_accum_eq_runCellsWith step cs (([] : List Pt), r0)]
  simp

theorem foldl_nested_ranges {β : Type} (g : β → ℕ → ℕ → β) (n : ℕ) (init : β) :
    (List.range n).foldl
        (fun acc x => (List.range n).foldl (fun acc y => g acc x y) acc) init =
      (rowMajorCells n).foldl (fun acc c => g acc c.1 c.2) init := by
  rw [rowMajorCells]
  suffices h : ∀ (xs : List ℕ) (b : β),
      xs.foldl (fun acc x => (List.range n).foldl (fun acc y => g acc x y) acc) b =
        (xs.flatMap fun x => (List.range n).map fun y => (x, y)).foldl
          (fun acc c => g acc c.1 c.2) b by
    exact h (List.range n) init
  intro xs
  induction xs with
  | nil => intro b; rfl
  | cons x xs ih =>
    intro b
    simp only [List.foldl_cons, List.flatMap_cons, List.foldl_append, List.foldl_map]
    exact ih _

theorem cellStep_eq_specCell (src : RngSrc) (field : ℚ → ℚ → ℚ)
    (x_min y_min dx dy : ℚ) (c : ℕ × ℕ) (r : Rng) :
    cellStep src field x_min y_min dx dy (dx * dy) c.1 c.2 r =
      specCell src field x_min y_min dx dy c r := by
  simp only [cellStep, specCell]
  split_ifs with h h' h' <;> first | rfl | linarith

theorem generate_eq_point_process_spec (src : RngSrc) (field : ℚ → ℚ → ℚ)
    (rect : ℚ × ℚ × ℚ × ℚ) (seed : ℕ) :
    generate_points_on_distribution src field rect seed =
      point_process_spec src field rect seed := by
  simp only [generate_points_on_distribution, point_process_spec]
  rw [foldl_nested_ranges
    (fun acc x y =>
      (acc.1 ++
          (cellStep src field rect.1 rect.2.2.1
            ((rect.2.1 - rect.1) / ((100 : ℕ) : ℚ)) ((rect.2.2.2 - rect.2.2.1) / ((100 : ℕ) : ℚ))
            ((rect.2.1 - rect.1) / ((100 : ℕ) : ℚ) * ((rect.2.2.2 - rect.2.2.1) / ((100 : ℕ) : ℚ)))
            x y acc.2).1,
        (cellStep src field rect.1 rect.2.2.1
            ((rect.2.1 - rect.1) / ((100 : ℕ) : ℚ)) ((rect.2.2.2 - rect.2.2.1) / ((100 : ℕ) : ℚ))
            ((rect.2.1 - rect.1) / ((100 : ℕ) : ℚ) * ((rect.2.2.2 - rect.2.2.1) / ((100 : ℕ) : ℚ)))
            x y acc.2).2))
    100 ([], ⟨seed, 0⟩)]
  rw [foldl_accum_runCellsWith_nil
    (fun c r =>
      cellStep src field rect.1 rect.2.2.1
        ((rect.2.1 - rect.1) / ((100 : ℕ) : ℚ)) ((rect.2.2.2 - rect.2.2.1) / ((100 : ℕ) : ℚ))
        ((rect.2.1 - rect.1) / ((100 : ℕ) : ℚ) * ((rect.2.2.2 - rect.2.2.1) / ((100 : ℕ) : ℚ)))
        c.1 c.2 r)]
  have hstep :
      (fun (c : ℕ × ℕ) (r : Rng) =>
        cellStep src field rect.1 rect.2.2.1
          ((rect.2.1 - rect.1) / ((100 : ℕ) : ℚ)) ((rect.2.2.2 - rect.2.2.1) / ((100 : ℕ) : ℚ))
          ((rect.2.1 - rect.1) / ((100 : ℕ) : ℚ) * ((rect.2.2.2 - rect.2.2.1) / ((100 : ℕ) : ℚ)))
          c.1 c.2 r) =
      specCell src field rect.1 rect.2.2.1
        ((rect.2.1 - rect.1) / ((100 : ℕ) : ℚ)) ((rect.2.2.2 - rect.2.2.1) / ((100 : ℕ) : ℚ)) :=
    funext fun c => funext fun r =>
      cellStep_eq_specCell src field rect.1 rect.2.2.1 _ _ c r
  rw [hstep]

theorem scatterPoints_mem (src : RngSrc) (fx fy dx dy : ℚ)
    (hu : ∀ s c, 0 ≤ src.stdUnit s c ∧ src.stdUnit s c < 1)
    (hdx : 0 < dx) (hdy : 0 < dy) :
    ∀ (n : ℕ) (r : Rng) (p : Pt), p ∈ (scatterPoints src fx fy dx dy n r).1 →
      (fx ≤ p.1 ∧ p.1 < fx + dx) ∧ (fy ≤ p.2 ∧ p.2 < fy + dy)
  | 0, r, p, hp => by simp [scatterPoints] at hp
  | n + 1, r, p, hp => by
    simp only [scatterPoints, RngSrc.genUnit, List.mem_cons] at hp
    rcases hp with hp | hp
    · obtain ⟨hu1a, hu1b⟩ := hu r.seed r.cursor
      obtain ⟨hu2a, hu2b⟩ := hu r.seed (r.cursor + 1)
      subst hp
      refine ⟨⟨?_, ?_⟩, ?_, ?_⟩ <;> simp only [] <;> nlinarith
    · exact scatterPoints_mem src fx fy dx dy hu hdx hdy n _ p hp

theorem specCell_mem (src : RngSrc) (field : ℚ → ℚ → ℚ) (x_min y_min dx dy : ℚ)
    (c : ℕ × ℕ) (r : Rng) (p : Pt)
    (hu : ∀ s c, 0 ≤ src.stdUnit s c ∧ src.stdUnit s c < 1)
    (hdx : 0 < dx) (hdy : 0 < dy)
    (hp : p ∈ (specCell src field x_min y_min dx dy c r).1) :
    0 < field (x_min + dx * (c.1 : ℚ) + dx / 2) (y_min + dy * (c.2 : ℚ) + dy / 2) *
        (dx * dy) ∧
      (x_min + dx * (c.1 : ℚ) ≤ p.1 ∧ p.1 < x_min + dx * (c.1 : ℚ) + dx) ∧
      (y_min + dy * (c.2 : ℚ) ≤ p.2 ∧ p.2 < y_min + dy * (c.2 : ℚ) + dy) := by
  simp only [specCell] at hp
  split_ifs at hp with h
  · exact ⟨h, scatterPoints_mem src _ _ dx dy hu hdx hdy _ _ p hp⟩
  · simp at hp

theorem runCellsWith_mem (step : ℕ × ℕ → Rng → List Pt × Rng) :
    ∀ (cs : List (ℕ × ℕ)) (r : Rng) (p : Pt),
      p ∈ (runCellsWith step cs r).1 → ∃ c ∈ cs, ∃ r', p ∈ (step c r').1
  | [], r, p, hp => by simp [runCellsWith] at hp
  | c :: cs, r, p, hp => by
    simp only [runCellsWith, List.mem_append] at hp
    rcases hp with hp | hp
    · exact ⟨c, List.mem_cons_self c cs, r, hp⟩
    · obtain ⟨c', hc', r', hp'⟩ := runCellsWith_mem step cs (step c r).2 p hp
      exact ⟨c', List.mem_cons_of_mem c hc', r', hp'⟩

theorem mem_rowMajorCells {n : ℕ} {c : ℕ × ℕ} :
    c ∈ rowMajorCells n ↔ c.1 < n ∧ c.2 < n := by
  obtain ⟨x, y⟩ := c
  simp only [rowMajorCells, List.mem_flatMap, List.mem_map, List.mem_range, Prod.mk.injEq]
  constructor
  · rintro ⟨a, ha, b, hb, hax, hby⟩
    subst hax; subst hby; exact ⟨ha, hb⟩
  · rintro ⟨hx, hy⟩
    exact ⟨x, hx, y, hy, rfl, rfl⟩

theorem point_process_spec_runCells (src : RngSrc) (field : ℚ → ℚ → ℚ)
    (rect : ℚ × ℚ × ℚ × ℚ) (seed : ℕ) :
    point_process_spec src field rect seed =
      (runCellsWith
        (specCell src field rect.1 rect.2.2.1
          ((rect.2.1 - rect.1) / ((100 : ℕ) : ℚ))
          ((rect.2.2.2 - rect.2.2.1) / ((100 : ℕ) : ℚ)))
        (rowMajorCells 100) ⟨seed, 0⟩).1 := by
  simp only [point_process_spec]

theorem generate_points_mem (src : RngSrc) (field : ℚ → ℚ → ℚ)
    (rect : ℚ × ℚ × ℚ × ℚ) (seed : ℕ) (p : Pt)
    (hu : ∀ s c, 0 ≤ src.stdUnit s c ∧ src.stdUnit s c < 1)
    (hdx : 0 < (rect.2.1 - rect.1) / ((100 : ℕ) : ℚ))
    (hdy : 0 < (rect.2.2.2 - rect.2.2.1) / ((100 : ℕ) : ℚ))
    (hp : p ∈ generate_points_on_distribution src field rect seed) :
    ∃ i j : ℕ, i < 100 ∧ j < 100 ∧
      (0 < field
          (rect.1 + (rect.2.1 - rect.1) / ((100 : ℕ) : ℚ) * (i : ℚ) +
            (rect.2.1 - rect.1) / ((100 : ℕ) : ℚ) / 2)
          (rect.2.2.1 + (rect.2.2.2 - rect.2.2.1) / ((100 : ℕ) : ℚ) * (j : ℚ) +
            (rect.2.2.2 - rect.2.2.1) / ((100 : ℕ) : ℚ) / 2) *
          ((rect.2.1 - rect.1) / ((100 : ℕ) : ℚ) *
            ((rect.2.2.2 - rect.2.2.1) / ((100 : ℕ) : ℚ)))) ∧
      (rect.1 + (rect.2.1 - rect.1) / ((100 : ℕ) : ℚ) * (i : ℚ) ≤ p.1 ∧
        p.1 < rect.1 + (rect.2.1 - rect.1) / ((100 : ℕ) : ℚ) * (i : ℚ) +
          (rect.2.1 - rect.1) / ((100 : ℕ) : ℚ)) ∧
      (rect.2.2.1 + (rect.2.2.2 - rect.2.2.1) / ((100 : ℕ) : ℚ) * (j : ℚ) ≤ p.2 ∧
        p.2 < rect.2.2.1 + (rect.2.2.2 - rect.2.2.1) / ((100 : ℕ) : ℚ) * (j : ℚ) +
          (rect.2.2.2 - rect.2.2.1) / ((100 : ℕ) : ℚ)) := by
  rw [generate_eq_point_process_spec, point_process_spec_runCells] at hp
  obtain ⟨c, hc, r', hp'⟩ := runCellsWith_mem _ _ _ p hp
  obtain ⟨hc1, hc2⟩ := mem_rowMajorCells.mp hc
  have hm := specCell_mem src field rect.1 rect.2.2.1 _ _ c r' p hu hdx hdy hp'
  exact ⟨c.1, c.2, hc1, hc2, hm.1, hm.2.1, hm.2.2⟩

/-! ### Claim theorems -/

/-- C1: Determinism — for every seed (and fixed assets and external sources),
running the scene construction twice with the same seed yields identical
point lists, point counts per vegetation category, and instance-transform
lists.  The embedding makes every input of `Scene::create` explicit (the seed,
the assets image, and the deterministic external draw/noise sources), so
determinism is precisely that the construction is a pure function of them. -/
theorem scene_generation_deterministic
    (src : RngSrc) (cosF sinF : ℚ → ℚ) (img : RgbaImage) (s1 s2 : ℕ)
    (h : s1 = s2) :
    Scene.create src cosF sinF img s1 = Scene.create src cosF sinF img s2 ∧
    (Scene.create src cosF sinF img s1).map (fun cat => cat.1) =
      (Scene.create src cosF sinF img s2).map (fun cat => cat.1) ∧
    (Scene.create src cosF sinF img s1).map (fun cat => cat.1.length) =
      (Scene.create src cosF sinF img s2).map (fun cat => cat.1.length) ∧
    (Scene.create src cosF sinF img s1).map (fun cat => cat.2) =
      (Scene.create src cosF sinF img s2).map (fun cat => cat.2) := by
  subst h
  exact ⟨rfl, rfl, rfl, rfl⟩

theorem scene_generation_deterministic_witness :
    Scene.create trivialSrc id id trivialImg 7 =
      Scene.create trivialSrc id id trivialImg 7 ∧
    (Scene.create trivialSrc id id trivialImg 7).map (fun cat => cat.1) =
      (Scene.create trivialSrc id id trivialImg 7).map (fun cat => cat.1) ∧
    (Scene.create trivialSrc id id trivialImg 7).map (fun cat => cat.1.length) =
      (Scene.create trivialSrc id id trivialImg 7).map (fun cat => cat.1.length) ∧
    (Scene.create trivialSrc id id trivialImg 7).map (fun cat => cat.2) =
      (Scene.create trivialSrc id id trivialImg 7).map (fun cat => cat.2) :=
  scene_generation_deterministic trivialSrc id id trivialImg 7 7 rfl

/-- C2 (code bug): `probability_distribution` composes `ScaleBias` with
`bias = 1.0` and `scale = density / 2.0`, i.e. `v * density/2 + 1`; the
source comment (and the claim) require the remap of `[-1, 1]` onto
`[0, density]`, i.e. `(v + 1) * density/2`.  Evaluating the code at
`density = 50`: the base-noise value `-1` maps to `-24` (claimed: `0`) and
`1` maps to `26` (claimed: `50`). -/
theorem probability_distribution_eval :
    probability_distribution (constPerlinSrc (-1)) 50 0 0 0 = -24 ∧
    probability_distribution (constPerlinSrc 1) 50 0 0 0 = 26 ∧
    ((-24 : ℚ) ≠ 0 ∧ (26 : ℚ) ≠ 50) := by
  norm_num [probability_distribution, scaleBias, constPerlinSrc, trivialSrc]

/-- C3: the point process partitions the rectangle into a fixed 100×100 grid,
iterates the cells in the fixed nested order, and per cell evaluates the
density field at the cell centre, multiplies by the cell area to obtain `λ`,
draws the count as `⌊λ + u⌋` with one unit draw, and scatters exactly that
many points uniformly within the cell: the source embedding coincides with
`point_process_spec`, the claim's algorithm (first conjunct), and the scatter
step emits exactly the drawn number of points (second conjunct).  Cells with
`λ ≤ 0` follow the specification's edge-case rule, the subject of the
zero-rate claim. -/
theorem generate_points_follows_spec :
    (∀ (src : RngSrc) (field : ℚ → ℚ → ℚ) (rect : ℚ × ℚ × ℚ × ℚ) (seed : ℕ),
      generate_points_on_distribution src field rect seed =
        point_process_spec src field rect seed) ∧
    (∀ (src : RngSrc) (fx fy dx dy : ℚ) (n : ℕ) (r : Rng),
      ((scatterPoints src fx fy dx dy n r).1).length = n) :=
  ⟨fun src field rect seed => generate_eq_point_process_spec src field rect seed,
   fun src fx fy dx dy n r => scatterPoints_length src fx fy dx dy n r⟩

/-- C4: a cell whose expected count `λ` is zero or negative produces no
points and performs no RNG draw — the cell leaves the RNG state unchanged
(first conjunct, the `continue` at `foliage.rs:244-246`); consequently, for a
density field that is non-positive at a grid cell's centre, no point of the
whole generated output lies in that cell, for any seed (second conjunct). -/
theorem zero_rate_cell_contributes_nothing
    (src : RngSrc) (d : ℚ → ℚ → ℚ) (x_min x_max y_min y_max : ℚ)
    (seed : ℕ) (i j : ℕ)
    (hu : ∀ s c, 0 ≤ src.stdUnit s c ∧ src.stdUnit s c < 1)
    (hx : x_min < x_max) (hy : y_min < y_max)
    (hlam : d (x_min + (x_max - x_min) / 100 * (i : ℚ) + (x_max - x_min) / 100 / 2)
        (y_min + (y_max - y_min) / 100 * (j : ℚ) + (y_max - y_min) / 100 / 2) *
        ((x_max - x_min) / 100 * ((y_max - y_min) / 100)) ≤ 0) :
    (∀ (xm ym dx dy area : ℚ) (x y : ℕ) (r : Rng),
        d (xm + dx * (x : ℚ) + dx / 2) (ym + dy * (y : ℚ) + dy / 2) * area ≤ 0 →
        cellStep src d xm ym dx dy area x y r = ([], r)) ∧
    ∀ p ∈ generate_points_on_distribution src d (x_min, x_max, y_min, y_max) seed,
      ¬((x_min + (x_max - x_min) / 100 * (i : ℚ) ≤ p.1 ∧
          p.1 < x_min + (x_max - x_min) / 100 * (i : ℚ) + (x_max - x_min) / 100) ∧
        (y_min + (y_max - y_min) / 100 * (j : ℚ) ≤ p.2 ∧
          p.2 < y_min + (y_max - y_min) / 100 * (j : ℚ) + (y_max - y_min) / 100)) := by
  constructor
  · intro xm ym dx dy area x y r h
    simp only [cellStep]
    rw [if_pos h]
  · intro p hp hmem
    have hdx : 0 < (x_max - x_min) / ((100 : ℕ) : ℚ) := by
      apply div_pos (by linarith) (by norm_num)
    have hdy : 0 < (y_max - y_min) / ((100 : ℕ) : ℚ) := by
      apply div_pos (by linarith) (by norm_num)
    obtain ⟨i', j', _, _, hpos, hxi, hyj⟩ :=
      generate_points_mem src d (x_min, x_max, y_min, y_max) seed p hu hdx hdy hp
    simp only [Nat.cast_ofNat] at hpos hxi hyj hdx hdy
    by_cases hii : i' = i
    · by_cases hjj : j' = j
      · subst hii
        subst hjj
        exact absurd hlam (not_le.mpr hpos)
      · rcases Nat.lt_or_lt_of_ne hjj with hlt | hlt
        · have hc : (j' : ℚ) + 1 ≤ (j : ℚ) := by exact_mod_cast hlt
          nlinarith [hyj.2, hmem.2.1, hdy, hc]
        · have hc : (j : ℚ) + 1 ≤ (j' : ℚ) := by exact_mod_cast hlt
          nlinarith [hyj.1, hmem.2.2, hdy, hc]
    · rcases Nat.lt_or_lt_of_ne hii with hlt | hlt
      · have hc : (i' : ℚ) + 1 ≤ (i : ℚ) := by exact_mod_cast hlt
        nlinarith [hxi.2, hmem.1.1, hdx, hc]
      · have hc : (i : ℚ) + 1 ≤ (i' : ℚ) := by exact_mod_cast hlt
        nlinarith [hxi.1, hmem.1.2, hdx, hc]

theorem zero_rate_cell_contributes_nothing_witness :
    ((∀ (xm ym dx dy area : ℚ) (x y : ℕ) (r : Rng),
        (fun _ _ => (0 : ℚ)) (xm + dx * (x : ℚ) + dx / 2) (ym + dy * (y : ℚ) + dy / 2) *
            area ≤ 0 →
        cellStep trivialSrc (fun _ _ => (0 : ℚ)) xm ym dx dy area x y r = ([], r)) ∧
    ∀ p ∈ generate_points_on_distribution trivialSrc (fun _ _ => (0 : ℚ))
        (0, 15, 0, 15) 0,
      ¬((0 + (15 - 0) / 100 * ((0 : ℕ) : ℚ) ≤ p.1 ∧
          p.1 < 0 + (15 - 0) / 100 * ((0 : ℕ) : ℚ) + (15 - 0) / 100) ∧
        (0 + (15 - 0) / 100 * ((0 : ℕ) : ℚ) ≤ p.2 ∧
          p.2 < 0 + (15 - 0) / 100 * ((0 : ℕ) : ℚ) + (15 - 0) / 100))) :=
  zero_rate_cell_contributes_nothing trivialSrc (fun _ _ => (0 : ℚ)) 0 15 0 15 0 0 0
    (fun s c => by constructor <;> simp [trivialSrc])
    (by norm_num) (by norm_num) (by norm_num)

/-- C5: if `num_limit = k` is configured and the raw generated point count
exceeds `k`, the final point list has length exactly `k` and is obtained by
shuffling the raw list with the builder RNG and truncating to `k`; the step
is a pure function of its inputs, so re-running with the same RNG state
retains the same subset. -/
theorem entity_limit_cap (src : RngSrc) (k : ℕ) (pos : List Pt) (r : Rng)
    (hshuf : ∀ s c l, ((src.stdShuffle s c l).1).length = l.length)
    (hlen : k < pos.length) :
    (applyEntityLimit src k pos r).1.length = k ∧
    (applyEntityLimit src k pos r).1 =
      ((src.stdShuffle r.seed r.cursor pos).1).take k ∧
    ∀ r', r' = r →
      applyEntityLimit src k pos r' = applyEntityLimit src k pos r := by
  refine ⟨?_, ?_, ?_⟩
  · simp only [applyEntityLimit, RngSrc.shuffle, if_pos hlen]
    rw [List.length_take, hshuf, min_eq_left (le_of_lt hlen)]
  · simp only [applyEntityLimit, RngSrc.shuffle, if_pos hlen]
  · intro r' h
    rw [h]

theorem entity_limit_cap_witness :
    (applyEntityLimit trivialSrc 1 [(0, 0), (1, 1)] ⟨3, 0⟩).1.length = 1 ∧
    (applyEntityLimit trivialSrc 1 [(0, 0), (1, 1)] ⟨3, 0⟩).1 =
      ((trivialSrc.stdShuffle 3 0 [(0, 0), (1, 1)]).1).take 1 ∧
    ∀ r', r' = (⟨3, 0⟩ : Rng) →
      applyEntityLimit trivialSrc 1 [(0, 0), (1, 1)] r' =
        applyEntityLimit trivialSrc 1 [(0, 0), (1, 1)] ⟨3, 0⟩ :=
  entity_limit_cap trivialSrc 1 [(0, 0), (1, 1)] ⟨3, 0⟩
    (fun _ _ _ => rfl) (by norm_num)

/-- C6: the per-instance transform equals translate-to-`(x, y, h)`, then
rotate about Z, then scale, composed in that order — as matrices,
`T * Rz * S` (first conjunct, over any commutative ring and any
cosine/sine pair); in particular, at the point `(2,3)` with height `1.5`,
rotation angle `0` (real cosine and sine of `0`), scale `1` and z-scale `1`,
the transform's translation column is `(2, 3, 1.5, 1)` and its linear
(non-translation) part is the identity (second and third conjuncts). -/
theorem instance_transform_composition :
    (∀ (K : Type) [CommRing K] (x y h c s sc zs : K),
      instanceTransform x y h c s sc zs =
        mat4Mul (mat4Mul (translationMat ![x, y, h]) (rotationZMat c s))
          (scaleMat ![sc, sc, sc * zs])) ∧
    (∀ i : Fin 4,
      instanceTransform (K := ℝ) 2 3 (3/2) (Real.cos 0) (Real.sin 0) 1 1 i 3 =
        ![(2 : ℝ), 3, 3/2, 1] i) ∧
    (∀ i j : Fin 4, j ≠ 3 →
      instanceTransform (K := ℝ) 2 3 (3/2) (Real.cos 0) (Real.sin 0) 1 1 i j =
        if i = j then 1 else 0) := by
  refine ⟨?_, ?_, ?_⟩
  · intro K _ x y h c s sc zs
    funext i j
    fin_cases i <;> fin_cases j <;>
      simp [instanceTransform, glmScale, glmRotateZ, glmTranslate, mat4Id,
        mat4Mul, translationMat, rotationZMat, scaleMat,
        Matrix.vecHead, Matrix.vecTail]
  · intro i
    fin_cases i <;>
      simp [instanceTransform, glmScale, glmRotateZ, glmTranslate, mat4Id,
        Matrix.vecHead, Matrix.vecTail, Real.cos_zero, Real.sin_zero]
  · intro i j hj
    fin_cases i <;> fin_cases j <;>
      simp_all [instanceTransform, glmScale, glmRotateZ, glmTranslate, mat4Id,
        Matrix.vecHead, Matrix.vecTail, Real.cos_zero, Real.sin_zero]

theorem rotationUpperBound_lt_two_pi :
    ((rotationUpperBound : ℚ) : ℝ) < 2 * Real.pi := by
  have hpi : (3.141592 : ℝ) < Real.pi := Real.pi_gt_d6
  have hval : ((rotationUpperBound : ℚ) : ℝ) = 6.28 := by
    norm_num [rotationUpperBound]
  rw [hval]; linarith

/-- C7 counterexample: the rotation draw at `foliage.rs:90` is
`Uniform::new(0.0, 6.28)`, and its upper endpoint `6.28` is strictly below —
in particular not equal to — `2π`; the sampled interval `[0, 6.28)` is
therefore not the claimed `[0, 2π)` (the sub-interval `[6.28, 2π)` is never
reached). -/
theorem rotation_interval_ne_two_pi :
    ((rotationUpperBound : ℚ) : ℝ) < 2 * Real.pi ∧
    ((rotationUpperBound : ℚ) : ℝ) ≠ 2 * Real.pi :=
  ⟨rotationUpperBound_lt_two_pi, ne_of_lt rotationUpperBound_lt_two_pi⟩

/-- C7 (amended): per placed instance, the rotation angle is sampled
uniformly from the half-open interval `[0, 6.28)` — slightly less than the
claimed `2π`, so in particular still below `2π` — and the Z-scale and XY
scale are sampled from their configured closed ranges. -/
theorem instance_sampling_ranges (src : RngSrc) (z0 z1 s0 s1 : ℚ) (r : Rng)
    (hu : ∀ s c, 0 ≤ src.stdUnit s c ∧ src.stdUnit s c < 1)
    (hcc : ∀ s c, 0 ≤ src.stdCC s c ∧ src.stdCC s c ≤ 1)
    (hz : z0 ≤ z1) (hs : s0 ≤ s1) :
    (0 ≤ (sampleInstanceParams src z0 z1 s0 s1 r).1.1 ∧
      (sampleInstanceParams src z0 z1 s0 s1 r).1.1 < rotationUpperBound ∧
      (((sampleInstanceParams src z0 z1 s0 s1 r).1.1 : ℚ) : ℝ) < 2 * Real.pi) ∧
    (z0 ≤ (sampleInstanceParams src z0 z1 s0 s1 r).1.2.1 ∧
      (sampleInstanceParams src z0 z1 s0 s1 r).1.2.1 ≤ z1) ∧
    (s0 ≤ (sampleInstanceParams src z0 z1 s0 s1 r).1.2.2 ∧
      (sampleInstanceParams src z0 z1 s0 s1 r).1.2.2 ≤ s1) := by
  obtain ⟨hu0, hu1⟩ := hu r.seed r.cursor
  obtain ⟨hcz0, hcz1⟩ := hcc r.seed (r.cursor + 1)
  obtain ⟨hcs0, hcs1⟩ := hcc r.seed (r.cursor + 1 + 1)
  have hrot : (0 : ℚ) < rotationUpperBound := by norm_num [rotationUpperBound]
  simp only [sampleInstanceParams, RngSrc.sampleUniform, RngSrc.sampleUniformInclusive,
    RngSrc.genUnit, RngSrc.genCC]
  refine ⟨⟨?_, ?_, ?_⟩, ⟨?_, ?_⟩, ⟨?_, ?_⟩⟩
  · nlinarith
  · nlinarith
  · have hq : (0 : ℚ) + (rotationUpperBound - 0) * src.stdUnit r.seed r.cursor <
        rotationUpperBound := by nlinarith
    have hcast : (((0 : ℚ) + (rotationUpperBound - 0) * src.stdUnit r.seed r.cursor : ℚ) : ℝ) <
        ((rotationUpperBound : ℚ) : ℝ) := by exact_mod_cast hq
    exact lt_trans hcast rotationUpperBound_lt_two_pi
  · nlinarith
  · nlinarith
  · nlinarith
  · nlinarith

theorem instance_sampling_ranges_witness :
    (0 ≤ (sampleInstanceParams trivialSrc 0 1 2 3 ⟨5, 0⟩).1.1 ∧
      (sampleInstanceParams trivialSrc 0 1 2 3 ⟨5, 0⟩).1.1 < rotationUpperBound ∧
      (((sampleInstanceParams trivialSrc 0 1 2 3 ⟨5, 0⟩).1.1 : ℚ) : ℝ) < 2 * Real.pi) ∧
    (0 ≤ (sampleInstanceParams trivialSrc 0 1 2 3 ⟨5, 0⟩).1.2.1 ∧
      (sampleInstanceParams trivialSrc 0 1 2 3 ⟨5, 0⟩).1.2.1 ≤ 1) ∧
    (2 ≤ (sampleInstanceParams trivialSrc 0 1 2 3 ⟨5, 0⟩).1.2.2 ∧
      (sampleInstanceParams trivialSrc 0 1 2 3 ⟨5, 0⟩).1.2.2 ≤ 3) :=
  instance_sampling_ranges trivialSrc 0 1 2 3 ⟨5, 0⟩
    (fun s c => by constructor <;> simp [trivialSrc])
    (fun s c => by constructor <;> simp [trivialSrc])
    (by norm_num) (by norm_num)

/-- C8: the raster-channel adapter maps a world coordinate to pixel indices
by linear scaling against the world-space domain size, clamps them into the
image bounds — never wraps: a query at or beyond the domain edge lands on the
last pixel, a non-positive query on pixel zero — indexes the image with the
deliberate x/y axis swap, and returns the selected channel normalized into
`[0, 1]`.  Stated as: the adapter coincides with the claim-side description
`imageGetSpec`, the two indices are always in bounds, edge queries clamp, and
the returned value lies in `[0, 1]`. -/
theorem raster_adapter_correct (img : RgbaImage) (channel : Fin 4) (px py : ℚ)
    (hw : 0 < img.width) (hh : 0 < img.height) (hw32 : img.width ≤ 2 ^ 32 - 1) :
    ImageNoiseFnWrapper.get img channel px py = imageGetSpec img channel px py ∧
    pixelIndex img.width px < img.width ∧
    pixelIndex img.height py < img.height ∧
    (SCENE_SIZE ≤ px → pixelIndex img.width px = img.width - 1) ∧
    (px ≤ 0 → pixelIndex img.width px = 0) ∧
    (0 ≤ ImageNoiseFnWrapper.get img channel px py ∧
      ImageNoiseFnWrapper.get img channel px py ≤ 1) := by
  refine ⟨?_, ?_, ?_, ?_, ?_, ?_, ?_⟩
  · have harg : ∀ (q : ℚ) (n : ℕ), q / SCENE_SIZE * (n : ℚ) = q * (n : ℚ) / SCENE_SIZE := by
      intro q n; ring
    simp only [ImageNoiseFnWrapper.get, imageGetSpec, pixelIndex, harg]
  · exact Nat.lt_of_le_of_lt (min_le_right _ _) (Nat.sub_lt hw Nat.one_pos)
  · exact Nat.lt_of_le_of_lt (min_le_right _ _) (Nat.sub_lt hh Nat.one_pos)
  · intro hpx
    have hs15 : (0 : ℚ) < SCENE_SIZE := by norm_num [SCENE_SIZE]
    have h1 : (img.width : ℚ) ≤ px / SCENE_SIZE * (img.width : ℚ) := by
      have hq1 : (1 : ℚ) ≤ px / SCENE_SIZE := (le_div_iff₀ hs15).mpr (by linarith)
      nlinarith [(Nat.cast_nonneg img.width : (0 : ℚ) ≤ img.width)]
    have h2 : (img.width : ℤ) ≤ ⌊px / SCENE_SIZE * (img.width : ℚ)⌋ :=
      Int.le_floor.mpr (by exact_mod_cast h1)
    have h3 : img.width ≤ f64AsU32 (px / SCENE_SIZE * (img.width : ℚ)) := by
      unfold f64AsU32
      have hmin : (img.width : ℤ) ≤ min ⌊px / SCENE_SIZE * (img.width : ℚ)⌋ (2 ^ 32 - 1) :=
        le_min h2 (by omega)
      calc img.width = ((img.width : ℤ)).toNat := by simp
        _ ≤ _ := Int.toNat_le_toNat hmin
    exact min_eq_right (by omega)
  · intro hpx
    have hs15 : (0 : ℚ) ≤ SCENE_SIZE := by norm_num [SCENE_SIZE]
    have hq : px / SCENE_SIZE * (img.width : ℚ) ≤ 0 :=
      mul_nonpos_of_nonpos_of_nonneg (div_nonpos_of_nonpos_of_nonneg hpx hs15)
        (Nat.cast_nonneg _)
    have hfl : ⌊px / SCENE_SIZE * (img.width : ℚ)⌋ ≤ 0 := Int.floor_nonpos hq
    have : f64AsU32 (px / SCENE_SIZE * (img.width : ℚ)) = 0 := by
      unfold f64AsU32
      rw [Int.toNat_of_nonpos (le_trans (min_le_left _ _) hfl)]
    unfold pixelIndex
    rw [this]
    exact Nat.zero_min _
  · exact div_nonneg (Nat.cast_nonneg _) (by norm_num)
  · have hb : ∀ v : Fin 256, ((v : ℕ) : ℚ) / 255 ≤ 1 := fun v => by
      rw [div_le_one (by norm_num : (0 : ℚ) < 255)]
      exact_mod_cast Fin.is_le v
    exact hb _

theorem raster_adapter_correct_witness :
    ImageNoiseFnWrapper.get trivialImg 0 20 (-1) = imageGetSpec trivialImg 0 20 (-1) ∧
    pixelIndex trivialImg.width 20 < trivialImg.width ∧
    pixelIndex trivialImg.height (-1) < trivialImg.height ∧
    (SCENE_SIZE ≤ 20 → pixelIndex trivialImg.width 20 = trivialImg.width - 1) ∧
    ((20 : ℚ) ≤ 0 → pixelIndex trivialImg.width 20 = 0) ∧
    (0 ≤ ImageNoiseFnWrapper.get trivialImg 0 20 (-1) ∧
      ImageNoiseFnWrapper.get trivialImg 0 20 (-1) ≤ 1) :=
  raster_adapter_correct trivialImg 0 20 (-1)
    (by norm_num [trivialImg]) (by norm_num [trivialImg]) (by norm_num [trivialImg])

/-- C9 (code bug): `eye_position` computes the sinusoidal bob vector but
returns only the constant base `(1.0, 1.0, 2.0)`; the returned position is
identical for every pair of elapsed times (and every sine implementation),
contradicting the claimed time dependence. -/
theorem eye_position_constant :
    ∀ (sinF : ℚ → ℚ) (t1 t2 : ℚ),
      Scene.eye_position sinF t1 = Scene.eye_position sinF t2 ∧
      Scene.eye_position sinF t1 = (1, 1, 2) :=
  fun _ _ _ => ⟨rfl, rfl⟩

/-- C10: the variant/bushiness field of `variant_map` is the composed field
clamped to `[0, 1]` and then squared, so every evaluation lies in `[0, 1]`,
for every draw source, image, seed and coordinate. -/
theorem variant_map_in_unit_interval
    (src : RngSrc) (img : RgbaImage) (seed : ℕ) (x y : ℚ) :
    0 ≤ variant_map src img seed x y ∧ variant_map src img seed x y ≤ 1 := by
  simp only [variant_map]
  constructor
  · exact sq_nonneg _
  · exact pow_le_one₀
      (le_min (by norm_num) (le_max_left 0 _))
      (min_le_left 1 _)

example :
    cellStep
      { stdUnit := fun _ _ => 0, stdNat := fun _ _ => 0, stdCC := fun _ _ => 0,
        stdShuffle := fun _ c l => (l, c), smallNat := fun _ _ => 0,
        fbmPerlin := fun _ _ _ => 0, fbmValue602 := fun _ _ _ => 0,
        fbmRock := fun _ _ _ => 0 }
      (fun _ _ => 2) 0 0 (3/20) (3/20) (9/400) 0 0 ⟨5, 0⟩ =
      ([], ⟨5, 1⟩) := by
  norm_num [cellStep, scatterPoints, RngSrc.genUnit]
